import Mathlib

/-!
Shallow embedding of `oftests/l2switch_xdr.py`, an XDR-style binary
serialization module built on Python's `xdrlib`.

Byte buffers are modelled as `List Nat` (each element conceptually a byte,
`< 256`; Python's `bytes` type guarantees this, so theorems about decoding
arbitrary buffers carry that bound as a hypothesis where it matters).

Fallible operations return `Option`: `none` models a raised exception
(`struct.error`, `TypeError`, `EOFError`, `KeyError`), which the module never
catches, so any failure propagates to the caller.

Python field values are modelled as `Option Int`: `none` is Python's `None`
(the default for every constructor argument), `some x` an integer.
-/

namespace L2SwitchXDR

/-- Big-endian 4-byte encoding of a natural number, as produced by
`struct.pack` with a 4-byte big-endian format for an in-range value. -/
def be4 (x : Nat) : List Nat :=
  [x / 2 ^ 24 % 256, x / 2 ^ 16 % 256, x / 2 ^ 8 % 256, x % 256]

/-- Big-endian value of a byte list, as computed by `struct.unpack` with an
unsigned 4-byte big-endian format. -/
def beVal (l : List Nat) : Nat :=
  l.foldl (fun acc b => acc * 256 + b) 0

/-- Model of `xdrlib.Packer.pack_uint`: `struct.pack` of an unsigned 4-byte big-endian
field; raises (`none`) unless `0 <= x < 2^32`. -/
def pack_uint (x : Int) : Option (List Nat) :=
  if 0 ≤ x ∧ x < 2 ^ 32 then some (be4 x.toNat) else none

/-- Model of `xdrlib.Packer.pack_int`: `struct.pack` of a signed 4-byte big-endian
field; raises (`none`) unless `-2^31 <= x < 2^31`; in range, writes the
two's-complement bytes of `x`. -/
def pack_int (x : Int) : Option (List Nat) :=
  if -2 ^ 31 ≤ x ∧ x < 2 ^ 31 then some (be4 (x % 2 ^ 32).toNat) else none

/-- Model of `xdrlib.Unpacker.unpack_uint`: reads the 4 bytes at the current position,
raising `EOFError` (`none`) if fewer remain, and returns the unsigned
big-endian value together with the advanced position. -/
def unpack_uint (buf : List Nat) (pos : Nat) : Option (Nat × Nat) :=
  let data := (buf.drop pos).take 4
  if data.length < 4 then none else some (beVal data, pos + 4)

/-- Model of `xdrlib.Unpacker.unpack_int`: like `unpack_uint` but interprets the
4 bytes as a signed (two's-complement) big-endian integer. -/
def unpack_int (buf : List Nat) (pos : Nat) : Option (Int × Nat) :=
  let data := (buf.drop pos).take 4
  if data.length < 4 then none
  else
    let x := beVal data
    some (if x < 2 ^ 31 then (x : Int) else (x : Int) - 2 ^ 32, pos + 4)

/-- Packing one record field: `packer.pack_uint(obj.field)`.  A `None` field
makes `struct.pack` raise a `TypeError`, modelled as `none`. -/
def packField (f : Option Int) : Option (List Nat) :=
  match f with
  | none => none
  | some x => pack_uint x

/-- Python's `repr` of a field value: `repr(None)` is `"None"`, `repr` of an
integer is its decimal rendering. -/
def reprField (f : Option Int) : String :=
  match f with
  | none => "None"
  | some x => toString x

/-- A member of an `XDREnum` subclass: carries a stable `name` and integer
`value`. -/
structure XDREnumMember where
  name : String
  value : Int
deriving DecidableEq

/-- Model of `XDREnum.unpack_from`: `value = reader.unpack_int()` followed by
`cls.members[value]`; a missing key raises `KeyError` (`none`).  The
class-level `members` registry (a dict from integer value to member) is a
parameter, since no concrete enum subclass appears in the module. -/
def XDREnum.unpack_from (members : Int → Option XDREnumMember)
    (buf : List Nat) (pos : Nat) : Option (XDREnumMember × Nat) :=
  match unpack_int buf pos with
  | none => none
  | some (v, p) =>
    match members v with
    | none => none
    | some m => some (m, p)

/-- Model of `XDREnum.pack_into`: `packer.pack_int(value)`. -/
def XDREnum.pack_into (value : Int) : Option (List Nat) :=
  pack_int value

/-- Model of `class endpoint_key(XDRStruct)`, slots `vlan`, `mac_hi`, `mac_lo`. -/
structure endpoint_key where
  vlan : Option Int
  mac_hi : Option Int
  mac_lo : Option Int
deriving DecidableEq

/-- Model of `endpoint_key.__init__`; every argument defaults to `None` in the
source, so callers may pass `none`. -/
def endpoint_key.init (vlan mac_hi mac_lo : Option Int) : endpoint_key :=
  ⟨vlan, mac_hi, mac_lo⟩

/-- Model of `endpoint_key.pack_into`: packs `vlan`, `mac_hi`, `mac_lo` in order into
the packer; the buffer grows by the concatenation of the three fields. -/
def endpoint_key.pack_into (obj : endpoint_key) : Option (List Nat) :=
  match packField obj.vlan with
  | none => none
  | some b1 =>
    match packField obj.mac_hi with
    | none => none
    | some b2 =>
      match packField obj.mac_lo with
      | none => none
      | some b3 => some (b1 ++ b2 ++ b3)

/-- Model of `XDRStruct.pack` specialised to `endpoint_key`: a fresh packer, then
`pack_into`, then `get_buffer()`. -/
def endpoint_key.pack (obj : endpoint_key) : Option (List Nat) :=
  endpoint_key.pack_into obj

/-- Model of `endpoint_key.unpack_from`: three sequential `unpack_uint` reads
populating `vlan`, `mac_hi`, `mac_lo`. -/
def endpoint_key.unpack_from (buf : List Nat) (pos : Nat) :
    Option (endpoint_key × Nat) :=
  match unpack_uint buf pos with
  | none => none
  | some (vlan, p1) =>
    match unpack_uint buf p1 with
    | none => none
    | some (mac_hi, p2) =>
      match unpack_uint buf p2 with
      | none => none
      | some (mac_lo, p3) =>
        some (⟨some (vlan : Int), some (mac_hi : Int), some (mac_lo : Int)⟩, p3)

/-- Model of `XDRStruct.unpack` specialised to `endpoint_key`: a fresh unpacker over
`data` (position 0), then `unpack_from`; the final position is discarded. -/
def endpoint_key.unpack (data : List Nat) : Option endpoint_key :=
  (endpoint_key.unpack_from data 0).map Prod.fst

/-- Model of `endpoint_key.__repr__`: joins the literal parts with the `repr` of each
field, in declaration order. -/
def endpoint_key.reprStr (obj : endpoint_key) : String :=
  String.join ["endpoint_key(", "vlan=", reprField obj.vlan, ", ",
    "mac_hi=", reprField obj.mac_hi, ", ", "mac_lo=", reprField obj.mac_lo, ")"]

/-- Model of `class endpoint_value(XDRStruct)`, slot `port`. -/
structure endpoint_value where
  port : Option Int
deriving DecidableEq

/-- Model of `endpoint_value.__init__`; the argument defaults to `None`. -/
def endpoint_value.init (port : Option Int) : endpoint_value :=
  ⟨port⟩

/-- Model of `endpoint_value.pack_into`: packs the single `port` field. -/
def endpoint_value.pack_into (obj : endpoint_value) : Option (List Nat) :=
  packField obj.port

/-- Model of `XDRStruct.pack` specialised to `endpoint_value`. -/
def endpoint_value.pack (obj : endpoint_value) : Option (List Nat) :=
  endpoint_value.pack_into obj

/-- Model of `endpoint_value.unpack_from`: one `unpack_uint` read into `port`. -/
def endpoint_value.unpack_from (buf : List Nat) (pos : Nat) :
    Option (endpoint_value × Nat) :=
  match unpack_uint buf pos with
  | none => none
  | some (port, p1) => some (⟨some (port : Int)⟩, p1)

/-- Model of `XDRStruct.unpack` specialised to `endpoint_value`. -/
def endpoint_value.unpack (data : List Nat) : Option endpoint_value :=
  (endpoint_value.unpack_from data 0).map Prod.fst

/-- Model of `endpoint_value.__repr__`. -/
def endpoint_value.reprStr (obj : endpoint_value) : String :=
  String.join ["endpoint_value(", "port=", reprField obj.port, ")"]

/-- Model of `class endpoint_stats(XDRStruct)`, slots `packets`, `bytes`. -/
structure endpoint_stats where
  packets : Option Int
  bytes : Option Int
deriving DecidableEq

/-- Model of `endpoint_stats.__init__`; every argument defaults to `None`. -/
def endpoint_stats.init (packets bytes : Option Int) : endpoint_stats :=
  ⟨packets, bytes⟩

/-- Model of `endpoint_stats.pack_into`: packs `packets` then `bytes`. -/
def endpoint_stats.pack_into (obj : endpoint_stats) : Option (List Nat) :=
  match packField obj.packets with
  | none => none
  | some b1 =>
    match packField obj.bytes with
    | none => none
    | some b2 => some (b1 ++ b2)

/-- Model of `XDRStruct.pack` specialised to `endpoint_stats`. -/
def endpoint_stats.pack (obj : endpoint_stats) : Option (List Nat) :=
  endpoint_stats.pack_into obj

/-- Model of `endpoint_stats.unpack_from`: two sequential `unpack_uint` reads. -/
def endpoint_stats.unpack_from (buf : List Nat) (pos : Nat) :
    Option (endpoint_stats × Nat) :=
  match unpack_uint buf pos with
  | none => none
  | some (packets, p1) =>
    match unpack_uint buf p1 with
    | none => none
    | some (bytes, p2) => some (⟨some (packets : Int), some (bytes : Int)⟩, p2)

/-- Model of `XDRStruct.unpack` specialised to `endpoint_stats`. -/
def endpoint_stats.unpack (data : List Nat) : Option endpoint_stats :=
  (endpoint_stats.unpack_from data 0).map Prod.fst

/-- Model of `endpoint_stats.__repr__`. -/
def endpoint_stats.reprStr (obj : endpoint_stats) : String :=
  String.join ["endpoint_stats(", "packets=", reprField obj.packets, ", ",
    "bytes=", reprField obj.bytes, ")"]

/-- An instance of a concrete `XDRUnionMember` subclass: the `tag` stands for
the Python runtime class (no concrete subclass appears in the module), and
`value` is its single wrapped payload slot. -/
structure XDRUnionMemberObj where
  tag : String
  value : Option Int
deriving DecidableEq

/-- The universe of objects the module's `__eq__`/`__ne__` methods can
receive: an instance of one of the three record classes, or of a union-member
class.  Python's `type(self) != type(other)` check is the constructor (and,
for union members, `tag`) comparison. -/
inductive Obj where
| key (k : endpoint_key)
| val (v : endpoint_value)
| stats (s : endpoint_stats)
| member (m : XDRUnionMemberObj)
deriving DecidableEq

/-- The `__eq__` methods: each record class returns `False` when the runtime
types differ, then compares its own fields one by one, returning `False` at
the first mismatch; `XDRUnionMember.__eq__` is
`type(self) == type(other) and self.value == other.value`. -/
def Obj.eqPy : Obj → Obj → Bool
| .key a, .key b =>
  if a.vlan != b.vlan then false
  else if a.mac_hi != b.mac_hi then false
  else if a.mac_lo != b.mac_lo then false
  else true
| .key _, _ => false
| .val a, .val b =>
  if a.port != b.port then false else true
| .val _, _ => false
| .stats a, .stats b =>
  if a.packets != b.packets then false
  else if a.bytes != b.bytes then false
  else true
| .stats _, _ => false
| .member a, .member b => a.tag == b.tag && a.value == b.value
| .member _, _ => false

/-- Model of `XDRStruct.__ne__` and `XDRUnionMember.__ne__` are both
`return not self == other`. -/
def Obj.nePy (a b : Obj) : Bool :=
  !(Obj.eqPy a b)

/-! ### Helper lemmas about the byte-level primitives -/

lemma be4_length (x : Nat) : (be4 x).length = 4 := rfl

lemma beVal_cons4 (a b c d : Nat) :
    beVal [a, b, c, d] = ((a * 256 + b) * 256 + c) * 256 + d := by
  simp [beVal, List.foldl]

lemma beVal_be4 (x : Nat) (hx : x < 2 ^ 32) : beVal (be4 x) = x := by
  simp only [be4, beVal_cons4]
  omega

lemma beVal_lt (l : List Nat) (hl : l.length = 4) (hb : ∀ x ∈ l, x < 256) :
    beVal l < 2 ^ 32 := by
  match l, hl with
  | [a, b, c, d], _ =>
    have ha := hb a (by simp)
    have hbb := hb b (by simp)
    have hc := hb c (by simp)
    have hd := hb d (by simp)
    rw [beVal_cons4]
    omega

lemma be4_beVal (l : List Nat) (hl : l.length = 4) (hb : ∀ x ∈ l, x < 256) :
    be4 (beVal l) = l := by
  match l, hl with
  | [a, b, c, d], _ =>
    have ha := hb a (by simp)
    have hbb := hb b (by simp)
    have hc := hb c (by simp)
    have hd := hb d (by simp)
    rw [beVal_cons4]
    simp only [be4, List.cons.injEq, and_true]
    refine ⟨by omega, by omega, by omega, by omega⟩

lemma unpack_uint_eq (buf : List Nat) (pos : Nat) :
    unpack_uint buf pos =
      if buf.length < pos + 4 then none
      else some (beVal ((buf.drop pos).take 4), pos + 4) := by
  unfold unpack_uint
  simp only [List.length_take, List.length_drop]
  by_cases h : buf.length < pos + 4
  · rw [if_pos (by omega), if_pos h]
  · rw [if_neg (by omega), if_neg h]

lemma unpack_int_eq (buf : List Nat) (pos : Nat) :
    unpack_int buf pos =
      if buf.length < pos + 4 then none
      else
        some (if beVal ((buf.drop pos).take 4) < 2 ^ 31
               then (beVal ((buf.drop pos).take 4) : Int)
               else (beVal ((buf.drop pos).take 4) : Int) - 2 ^ 32,
              pos + 4) := by
  unfold unpack_int
  simp only [List.length_take, List.length_drop]
  by_cases h : buf.length < pos + 4
  · rw [if_pos (by omega), if_pos h]
  · rw [if_neg (by omega), if_neg h]

lemma pack_uint_of_bounds (x : Int) (h0 : 0 ≤ x) (h1 : x < 2 ^ 32) :
    pack_uint x = some (be4 x.toNat) := by
  unfold pack_uint
  rw [if_pos ⟨h0, h1⟩]

/-- For a buffer with at least 12 bytes, `endpoint_key.unpack_from` at
position 0 succeeds, reads exactly bytes 0..11, and stops at position 12. -/
lemma key_unpack_from_of_ge (b : List Nat) (h : 12 ≤ b.length) :
    endpoint_key.unpack_from b 0 =
      some (⟨some (beVal (b.take 4) : Int),
             some (beVal ((b.drop 4).take 4) : Int),
             some (beVal ((b.drop 8).take 4) : Int)⟩, 12) := by
  unfold endpoint_key.unpack_from
  rw [unpack_uint_eq, if_neg (by omega)]
  simp only
  rw [unpack_uint_eq, if_neg (by omega)]
  simp only
  rw [unpack_uint_eq, if_neg (by omega)]
  simp

lemma value_unpack_from_of_ge (b : List Nat) (h : 4 ≤ b.length) :
    endpoint_value.unpack_from b 0 =
      some (⟨some (beVal (b.take 4) : Int)⟩, 4) := by
  unfold endpoint_value.unpack_from
  rw [unpack_uint_eq, if_neg (by omega)]
  simp

lemma stats_unpack_from_of_ge (b : List Nat) (h : 8 ≤ b.length) :
    endpoint_stats.unpack_from b 0 =
      some (⟨some (beVal (b.take 4) : Int),
             some (beVal ((b.drop 4).take 4) : Int)⟩, 8) := by
  unfold endpoint_stats.unpack_from
  rw [unpack_uint_eq, if_neg (by omega)]
  simp only
  rw [unpack_uint_eq, if_neg (by omega)]
  simp

/-- Packing an `endpoint_key` whose fields are present and in 32-bit range
yields the concatenation of the three 4-byte fields. -/
lemma key_pack_eq (v h l : Int) (hv : 0 ≤ v ∧ v < 2 ^ 32)
    (hh : 0 ≤ h ∧ h < 2 ^ 32) (hl : 0 ≤ l ∧ l < 2 ^ 32) :
    endpoint_key.pack ⟨some v, some h, some l⟩ =
      some (be4 v.toNat ++ be4 h.toNat ++ be4 l.toNat) := by
  unfold endpoint_key.pack endpoint_key.pack_into packField
  simp only
  rw [pack_uint_of_bounds v hv.1 hv.2]
  simp only
  rw [pack_uint_of_bounds h hh.1 hh.2]
  simp only
  rw [pack_uint_of_bounds l hl.1 hl.2]

lemma value_pack_eq (p : Int) (hp : 0 ≤ p ∧ p < 2 ^ 32) :
    endpoint_value.pack ⟨some p⟩ = some (be4 p.toNat) := by
  unfold endpoint_value.pack endpoint_value.pack_into packField
  simp only
  rw [pack_uint_of_bounds p hp.1 hp.2]

lemma stats_pack_eq (p q : Int) (hp : 0 ≤ p ∧ p < 2 ^ 32)
    (hq : 0 ≤ q ∧ q < 2 ^ 32) :
    endpoint_stats.pack ⟨some p, some q⟩ = some (be4 p.toNat ++ be4 q.toNat) := by
  unfold endpoint_stats.pack endpoint_stats.pack_into packField
  simp only
  rw [pack_uint_of_bounds p hp.1 hp.2]
  simp only
  rw [pack_uint_of_bounds q hq.1 hq.2]

lemma seg3 (x y z : List Nat) (hx : x.length = 4) (hy : y.length = 4) :
    (x ++ y ++ z).take 4 = x ∧ ((x ++ y ++ z).drop 4).take 4 = y
      ∧ (x ++ y ++ z).drop 8 = z := by
  rw [List.append_assoc]
  refine ⟨List.take_left' hx, ?_, ?_⟩
  · rw [List.drop_left' hx, List.take_left' hy]
  · rw [show (8 : Nat) = 4 + 4 from rfl, ← List.drop_drop,
      List.drop_left' hx, List.drop_left' hy]

lemma seg2 (x y : List Nat) (hx : x.length = 4) :
    (x ++ y).take 4 = x ∧ (x ++ y).drop 4 = y :=
  ⟨List.take_left' hx, List.drop_left' hx⟩

/-- A length-12 list is the concatenation of its three 4-byte segments. -/
lemma take4_segments (b : List Nat) (h : b.length = 12) :
    b.take 4 ++ (b.drop 4).take 4 ++ (b.drop 8).take 4 = b := by
  have h1 : b.take (4 + 8) = b.take 4 ++ (b.drop 4).take 8 := List.take_add b 4 8
  have h2 : (b.drop 4).take (4 + 4) = (b.drop 4).take 4 ++ ((b.drop 4).drop 4).take 4 :=
    List.take_add (b.drop 4) 4 4
  have h3 : (b.drop 4).drop 4 = b.drop 8 := by rw [List.drop_drop]
  have h0 : b.take 12 = b := List.take_of_length_le (by omega)
  rw [h3] at h2
  calc b.take 4 ++ (b.drop 4).take 4 ++ (b.drop 8).take 4
      = b.take 4 ++ ((b.drop 4).take 4 ++ (b.drop 8).take 4) := by
        rw [List.append_assoc]
    _ = b.take 4 ++ (b.drop 4).take 8 := by rw [← h2]
    _ = b.take 12 := by rw [← h1]
    _ = b := h0

/-- A length-8 list is the concatenation of its two 4-byte segments. -/
lemma take4_segments2 (b : List Nat) (h : b.length = 8) :
    b.take 4 ++ (b.drop 4).take 4 = b := by
  have h1 : b.take (4 + 4) = b.take 4 ++ (b.drop 4).take 4 := List.take_add b 4 4
  have h0 : b.take 8 = b := List.take_of_length_le (by omega)
  rw [← h1, h0]

/-! ### Claim theorems -/

/-- C1: for every `endpoint_key`, `endpoint_value` and `endpoint_stats`
instance whose fields are all valid unsigned 32-bit integers, decoding the
bytes produced by encoding the instance yields a value equal to the
original: `decode(encode(v)) == v`. -/
theorem decode_encode_roundtrip
    (vlan mac_hi mac_lo port packets bytes : Int)
    (hv : 0 ≤ vlan ∧ vlan < 2 ^ 32) (hh : 0 ≤ mac_hi ∧ mac_hi < 2 ^ 32)
    (hl : 0 ≤ mac_lo ∧ mac_lo < 2 ^ 32) (hp : 0 ≤ port ∧ port < 2 ^ 32)
    (hk : 0 ≤ packets ∧ packets < 2 ^ 32) (hb : 0 ≤ bytes ∧ bytes < 2 ^ 32) :
    (endpoint_key.pack ⟨some vlan, some mac_hi, some mac_lo⟩).bind endpoint_key.unpack
        = some ⟨some vlan, some mac_hi, some mac_lo⟩
    ∧ (endpoint_value.pack ⟨some port⟩).bind endpoint_value.unpack = some ⟨some port⟩
    ∧ (endpoint_stats.pack ⟨some packets, some bytes⟩).bind endpoint_stats.unpack
        = some ⟨some packets, some bytes⟩ := by
  refine ⟨?_, ?_, ?_⟩
  · rw [key_pack_eq vlan mac_hi mac_lo hv hh hl, Option.some_bind]
    unfold endpoint_key.unpack
    rw [key_unpack_from_of_ge _ (by simp [be4])]
    obtain ⟨s1, s2, s3⟩ := seg3 (be4 vlan.toNat) (be4 mac_hi.toNat) (be4 mac_lo.toNat)
      (be4_length _) (be4_length _)
    have s4 : (be4 mac_lo.toNat).take 4 = be4 mac_lo.toNat := by
      rw [← be4_length mac_lo.toNat, List.take_length]
    rw [Option.map_some', s1, s2, s3, s4,
      beVal_be4 _ (by omega), beVal_be4 _ (by omega), beVal_be4 _ (by omega),
      Int.toNat_of_nonneg hv.1, Int.toNat_of_nonneg hh.1, Int.toNat_of_nonneg hl.1]
  · rw [value_pack_eq port hp, Option.some_bind]
    unfold endpoint_value.unpack
    rw [value_unpack_from_of_ge _ (by simp [be4])]
    have s1 : (be4 port.toNat).take 4 = be4 port.toNat := by
      rw [← be4_length port.toNat, List.take_length]
    rw [Option.map_some', s1, beVal_be4 _ (by omega), Int.toNat_of_nonneg hp.1]
  · rw [stats_pack_eq packets bytes hk hb, Option.some_bind]
    unfold endpoint_stats.unpack
    rw [stats_unpack_from_of_ge _ (by simp [be4])]
    obtain ⟨s1, s2⟩ := seg2 (be4 packets.toNat) (be4 bytes.toNat) (be4_length _)
    have s3 : (be4 bytes.toNat).take 4 = be4 bytes.toNat := by
      rw [← be4_length bytes.toNat, List.take_length]
    rw [Option.map_some', s1, s2, s3, beVal_be4 _ (by omega), beVal_be4 _ (by omega),
      Int.toNat_of_nonneg hk.1, Int.toNat_of_nonneg hb.1]

/-- Closed instance of C1 at concrete field values. -/
theorem decode_encode_roundtrip_witness :
    (endpoint_key.pack ⟨some 100, some 1, some (2 ^ 32 - 1)⟩).bind endpoint_key.unpack
        = some ⟨some 100, some 1, some (2 ^ 32 - 1)⟩
    ∧ (endpoint_value.pack ⟨some 0⟩).bind endpoint_value.unpack = some ⟨some 0⟩
    ∧ (endpoint_stats.pack ⟨some 7, some 9⟩).bind endpoint_stats.unpack
        = some ⟨some 7, some 9⟩ :=
  decode_encode_roundtrip 100 1 (2 ^ 32 - 1) 0 7 9 (by decide) (by decide)
    (by decide) (by decide) (by decide) (by decide)

/-- C2: for every instance of the three records with valid 32-bit field
values, the encoded byte sequence has a constant length independent of the
field values: 12 bytes for `endpoint_key`, 4 for `endpoint_value`, 8 for
`endpoint_stats`. -/
theorem encode_length_fixed
    (vlan mac_hi mac_lo port packets bytes : Int)
    (hv : 0 ≤ vlan ∧ vlan < 2 ^ 32) (hh : 0 ≤ mac_hi ∧ mac_hi < 2 ^ 32)
    (hl : 0 ≤ mac_lo ∧ mac_lo < 2 ^ 32) (hp : 0 ≤ port ∧ port < 2 ^ 32)
    (hk : 0 ≤ packets ∧ packets < 2 ^ 32) (hb : 0 ≤ bytes ∧ bytes < 2 ^ 32) :
    (∃ bs, endpoint_key.pack ⟨some vlan, some mac_hi, some mac_lo⟩ = some bs
        ∧ bs.length = 12)
    ∧ (∃ bs, endpoint_value.pack ⟨some port⟩ = some bs ∧ bs.length = 4)
    ∧ (∃ bs, endpoint_stats.pack ⟨some packets, some bytes⟩ = some bs
        ∧ bs.length = 8) :=
  ⟨⟨_, key_pack_eq vlan mac_hi mac_lo hv hh hl, by simp [be4]⟩,
   ⟨_, value_pack_eq port hp, by simp [be4]⟩,
   ⟨_, stats_pack_eq packets bytes hk hb, by simp [be4]⟩⟩

/-- Closed instance of C2 at the extreme field values 0 and `2^32 - 1`. -/
theorem encode_length_fixed_witness :
    (∃ bs, endpoint_key.pack ⟨some (2 ^ 32 - 1), some 0, some (2 ^ 32 - 1)⟩ = some bs
        ∧ bs.length = 12)
    ∧ (∃ bs, endpoint_value.pack ⟨some (2 ^ 32 - 1)⟩ = some bs ∧ bs.length = 4)
    ∧ (∃ bs, endpoint_stats.pack ⟨some 0, some (2 ^ 32 - 1)⟩ = some bs
        ∧ bs.length = 8) :=
  encode_length_fixed (2 ^ 32 - 1) 0 (2 ^ 32 - 1) (2 ^ 32 - 1) 0 (2 ^ 32 - 1)
    (by decide) (by decide) (by decide) (by decide) (by decide) (by decide)

/-- C3: decoding any byte sequence strictly shorter than the record's fixed
length (12, 4, 8 bytes) fails: the truncated read propagates to the caller
as a failed decode (`none`), with no internal recovery. -/
theorem truncated_decode_fails (b : List Nat) :
    (b.length < 12 → endpoint_key.unpack b = none)
    ∧ (b.length < 4 → endpoint_value.unpack b = none)
    ∧ (b.length < 8 → endpoint_stats.unpack b = none) := by
  refine ⟨?_, ?_, ?_⟩
  · intro h
    unfold endpoint_key.unpack endpoint_key.unpack_from
    rw [unpack_uint_eq]
    by_cases h1 : b.length < 0 + 4
    · rw [if_pos h1]; rfl
    · rw [if_neg h1]
      simp only
      rw [unpack_uint_eq]
      by_cases h2 : b.length < 0 + 4 + 4
      · rw [if_pos h2]; rfl
      · rw [if_neg h2]
        simp only
        rw [unpack_uint_eq, if_pos (by omega)]
        rfl
  · intro h
    unfold endpoint_value.unpack endpoint_value.unpack_from
    rw [unpack_uint_eq, if_pos (by omega)]
    rfl
  · intro h
    unfold endpoint_stats.unpack endpoint_stats.unpack_from
    rw [unpack_uint_eq]
    by_cases h1 : b.length < 0 + 4
    · rw [if_pos h1]; rfl
    · rw [if_neg h1]
      simp only
      rw [unpack_uint_eq, if_pos (by omega)]
      rfl

/-- Closed instance of C3: a 3-byte buffer fails to decode as
`endpoint_value`, and an 11-byte buffer fails to decode as `endpoint_key`. -/
theorem truncated_decode_fails_witness :
    (([0, 0, 0] : List Nat).length < 4
      ∧ endpoint_value.unpack [0, 0, 0] = none)
    ∧ (([0, 1, 2, 3, 4, 5, 6, 7, 8, 9, 10] : List Nat).length < 12
      ∧ endpoint_key.unpack [0, 1, 2, 3, 4, 5, 6, 7, 8, 9, 10] = none) :=
  ⟨⟨by decide, (truncated_decode_fails [0, 0, 0]).2.1 (by decide)⟩,
   ⟨by decide, (truncated_decode_fails [0, 1, 2, 3, 4, 5, 6, 7, 8, 9, 10]).1 (by decide)⟩⟩

/-- C4: equality across differing declared record types returns `false`
(and inequality `true`) regardless of field contents, resolved as a boolean
result rather than an error; in particular
`endpoint_key(1,2,3) != endpoint_value(1)`. -/
theorem cross_type_never_equal (k : endpoint_key) (v : endpoint_value)
    (s : endpoint_stats) :
    (Obj.eqPy (.key k) (.val v) = false ∧ Obj.nePy (.key k) (.val v) = true)
    ∧ (Obj.eqPy (.key k) (.stats s) = false ∧ Obj.nePy (.key k) (.stats s) = true)
    ∧ (Obj.eqPy (.val v) (.key k) = false ∧ Obj.nePy (.val v) (.key k) = true)
    ∧ (Obj.eqPy (.val v) (.stats s) = false ∧ Obj.nePy (.val v) (.stats s) = true)
    ∧ (Obj.eqPy (.stats s) (.key k) = false ∧ Obj.nePy (.stats s) (.key k) = true)
    ∧ (Obj.eqPy (.stats s) (.val v) = false ∧ Obj.nePy (.stats s) (.val v) = true)
    ∧ Obj.nePy (.key ⟨some 1, some 2, some 3⟩) (.val ⟨some 1⟩) = true :=
  ⟨⟨rfl, rfl⟩, ⟨rfl, rfl⟩, ⟨rfl, rfl⟩, ⟨rfl, rfl⟩, ⟨rfl, rfl⟩, ⟨rfl, rfl⟩, rfl⟩

/-- C5: decoding a buffer of exactly the record's fixed length and
re-encoding reproduces the buffer byte for byte; for a strictly longer
buffer, decoding succeeds, stops at the fixed length (does not consume the
trailing bytes), and returns the same value as decoding the fixed-length
prefix alone. -/
theorem decode_exact_and_trailing (b : List Nat) :
    ((∀ x ∈ b, x < 256) →
      (b.length = 12 →
        ∃ k, endpoint_key.unpack b = some k ∧ endpoint_key.pack k = some b)
      ∧ (b.length = 4 →
        ∃ v, endpoint_value.unpack b = some v ∧ endpoint_value.pack v = some b)
      ∧ (b.length = 8 →
        ∃ s, endpoint_stats.unpack b = some s ∧ endpoint_stats.pack s = some b))
    ∧ (12 ≤ b.length →
        endpoint_key.unpack b = endpoint_key.unpack (b.take 12)
        ∧ ∃ k, endpoint_key.unpack_from b 0 = some (k, 12))
    ∧ (4 ≤ b.length →
        endpoint_value.unpack b = endpoint_value.unpack (b.take 4)
        ∧ ∃ v, endpoint_value.unpack_from b 0 = some (v, 4))
    ∧ (8 ≤ b.length →
        endpoint_stats.unpack b = endpoint_stats.unpack (b.take 8)
        ∧ ∃ s, endpoint_stats.unpack_from b 0 = some (s, 8)) := by
  have hmem4 : ∀ (p : Nat), (∀ x ∈ b, x < 256) → ∀ x ∈ (b.drop p).take 4, x < 256 :=
    fun p hb x hx => hb x (List.mem_of_mem_drop (List.mem_of_mem_take hx))
  have hmemt : (∀ x ∈ b, x < 256) → ∀ x ∈ b.take 4, x < 256 :=
    fun hb x hx => hb x (List.mem_of_mem_take hx)
  refine ⟨fun hb => ⟨?_, ?_, ?_⟩, ?_, ?_, ?_⟩
  · intro h12
    unfold endpoint_key.unpack
    rw [key_unpack_from_of_ge b (by omega), Option.map_some']
    refine ⟨_, rfl, ?_⟩
    have l1 : (b.take 4).length = 4 := by simp; omega
    have l2 : ((b.drop 4).take 4).length = 4 := by simp; omega
    have l3 : ((b.drop 8).take 4).length = 4 := by simp; omega
    have u1 : beVal (b.take 4) < 2 ^ 32 := beVal_lt _ l1 (hmemt hb)
    have u2 : beVal ((b.drop 4).take 4) < 2 ^ 32 := beVal_lt _ l2 (hmem4 4 hb)
    have u3 : beVal ((b.drop 8).take 4) < 2 ^ 32 := beVal_lt _ l3 (hmem4 8 hb)
    rw [key_pack_eq _ _ _ ⟨by positivity, by exact_mod_cast u1⟩
      ⟨by positivity, by exact_mod_cast u2⟩ ⟨by positivity, by exact_mod_cast u3⟩]
    rw [Int.toNat_ofNat, Int.toNat_ofNat, Int.toNat_ofNat,
      be4_beVal _ l1 (hmemt hb), be4_beVal _ l2 (hmem4 4 hb),
      be4_beVal _ l3 (hmem4 8 hb), take4_segments b h12]
  · intro h4
    unfold endpoint_value.unpack
    rw [value_unpack_from_of_ge b (by omega), Option.map_some']
    refine ⟨_, rfl, ?_⟩
    have l1 : (b.take 4).length = 4 := by simp; omega
    have u1 : beVal (b.take 4) < 2 ^ 32 := beVal_lt _ l1 (hmemt hb)
    rw [value_pack_eq _ ⟨by positivity, by exact_mod_cast u1⟩, Int.toNat_ofNat,
      be4_beVal _ l1 (hmemt hb), List.take_of_length_le (by omega)]
  · intro h8
    unfold endpoint_stats.unpack
    rw [stats_unpack_from_of_ge b (by omega), Option.map_some']
    refine ⟨_, rfl, ?_⟩
    have l1 : (b.take 4).length = 4 := by simp; omega
    have l2 : ((b.drop 4).take 4).length = 4 := by simp; omega
    have u1 : beVal (b.take 4) < 2 ^ 32 := beVal_lt _ l1 (hmemt hb)
    have u2 : beVal ((b.drop 4).take 4) < 2 ^ 32 := beVal_lt _ l2 (hmem4 4 hb)
    rw [stats_pack_eq _ _ ⟨by positivity, by exact_mod_cast u1⟩
      ⟨by positivity, by exact_mod_cast u2⟩]
    rw [Int.toNat_ofNat, Int.toNat_ofNat, be4_beVal _ l1 (hmemt hb),
      be4_beVal _ l2 (hmem4 4 hb), take4_segments2 b h8]
  · intro hge
    refine ⟨?_, ⟨_, key_unpack_from_of_ge b hge⟩⟩
    unfold endpoint_key.unpack
    rw [key_unpack_from_of_ge b hge, key_unpack_from_of_ge (b.take 12) (by simp; omega)]
    rw [List.take_take, List.drop_take, List.drop_take, List.take_take, List.take_take]
    norm_num
  · intro hge
    refine ⟨?_, ⟨_, value_unpack_from_of_ge b hge⟩⟩
    unfold endpoint_value.unpack
    rw [value_unpack_from_of_ge b hge, value_unpack_from_of_ge (b.take 4) (by simp; omega)]
    rw [List.take_take]
    norm_num
  · intro hge
    refine ⟨?_, ⟨_, stats_unpack_from_of_ge b hge⟩⟩
    unfold endpoint_stats.unpack
    rw [stats_unpack_from_of_ge b hge, stats_unpack_from_of_ge (b.take 8) (by simp; omega)]
    rw [List.take_take, List.drop_take, List.take_take]
    norm_num

/-- Closed instance of C5: a 12-byte buffer re-encodes to itself, and a
13-byte buffer decodes like its 12-byte prefix without consuming the
trailing byte. -/
theorem decode_exact_and_trailing_witness :
    (∃ k, endpoint_key.unpack [0, 0, 0, 100, 10, 11, 12, 13, 14, 15, 16, 17] = some k
      ∧ endpoint_key.pack k = some [0, 0, 0, 100, 10, 11, 12, 13, 14, 15, 16, 17])
    ∧ (endpoint_key.unpack [0, 0, 0, 100, 10, 11, 12, 13, 14, 15, 16, 17, 99]
        = endpoint_key.unpack
            (([0, 0, 0, 100, 10, 11, 12, 13, 14, 15, 16, 17, 99] : List Nat).take 12)
      ∧ ∃ k, endpoint_key.unpack_from
          [0, 0, 0, 100, 10, 11, 12, 13, 14, 15, 16, 17, 99] 0 = some (k, 12)) :=
  ⟨((decode_exact_and_trailing [0, 0, 0, 100, 10, 11, 12, 13, 14, 15, 16, 17]).1
      (by decide)).1 (by decide),
   (decode_exact_and_trailing [0, 0, 0, 100, 10, 11, 12, 13, 14, 15, 16, 17, 99]).2.1
      (by decide)⟩

/-- C6 (amended): encoding `endpoint_key(vlan=100, mac_hi=0x0A0B0C0D,
mac_lo=0x0E0F1011)` yields exactly the big-endian bytes
`00 00 00 64 0A 0B 0C 0D 0E 0F 10 11`; decoding that sequence reproduces
the original triple; and its representation renders exactly as
`endpoint_key(vlan=100, mac_hi=168496141, mac_lo=235868177)` — the class
name is `endpoint_key` and `0x0E0F1011 = 235868177`. -/
theorem concrete_scenario_key :
    endpoint_key.pack ⟨some 100, some 0x0A0B0C0D, some 0x0E0F1011⟩
        = some [0x00, 0x00, 0x00, 0x64, 0x0A, 0x0B, 0x0C, 0x0D, 0x0E, 0x0F, 0x10, 0x11]
    ∧ endpoint_key.unpack
        [0x00, 0x00, 0x00, 0x64, 0x0A, 0x0B, 0x0C, 0x0D, 0x0E, 0x0F, 0x10, 0x11]
        = some ⟨some 100, some 0x0A0B0C0D, some 0x0E0F1011⟩
    ∧ endpoint_key.reprStr ⟨some 100, some 0x0A0B0C0D, some 0x0E0F1011⟩
        = "endpoint_key(vlan=100, mac_hi=168496141, mac_lo=235868177)" := by
  refine ⟨by decide, by decide, ?_⟩
  decide

/-- Refutation of C6 as stated: the decoded value's representation is the
string `endpoint_key(vlan=100, mac_hi=168496141, mac_lo=235868177)` produced
by `__repr__`, which differs from the claimed
`EndpointIdentity(vlan=100, mac_hi=168496141, mac_lo=235802641)` both in the
type name and in the last value (`0x0E0F1011` is 235868177, not 235802641). -/
theorem concrete_scenario_key_repr_differs :
    (endpoint_key.unpack
        [0x00, 0x00, 0x00, 0x64, 0x0A, 0x0B, 0x0C, 0x0D, 0x0E, 0x0F, 0x10, 0x11]).map
        endpoint_key.reprStr
      = some "endpoint_key(vlan=100, mac_hi=168496141, mac_lo=235868177)"
    ∧ some "endpoint_key(vlan=100, mac_hi=168496141, mac_lo=235868177)"
      ≠ some "EndpointIdentity(vlan=100, mac_hi=168496141, mac_lo=235802641)" := by
  refine ⟨by decide, by decide⟩

/-- C7: for every integer decoded from a 4-byte big-endian enum field, the
enum decode operation returns the unique registered member with that value
when one is registered, and fails (propagating to the caller) when none
is. -/
theorem enum_decode_lookup (members : Int → Option XDREnumMember)
    (hwf : ∀ v m, members v = some m → m.value = v)
    (buf : List Nat) (pos : Nat) (v : Int) (p : Nat)
    (hdec : unpack_int buf pos = some (v, p)) :
    (∀ m, members v = some m →
        XDREnum.unpack_from members buf pos = some (m, p) ∧ m.value = v)
    ∧ (members v = none → XDREnum.unpack_from members buf pos = none) := by
  constructor
  · intro m hm
    refine ⟨?_, hwf v m hm⟩
    unfold XDREnum.unpack_from
    rw [hdec]
    simp only
    rw [hm]
  · intro hm
    unfold XDREnum.unpack_from
    rw [hdec]
    simp only
    rw [hm]

/-- An example registry for the C7 witness: one member named `"THREE"`
with value 3 and nothing else. -/
def egMembers : Int → Option XDREnumMember :=
  fun v => if v = 3 then some ⟨"THREE", 3⟩ else none

/-- Closed instance of C7: decoding `00 00 00 03` yields the registered
member, and decoding the unregistered `00 00 00 05` fails. -/
theorem enum_decode_lookup_witness :
    XDREnum.unpack_from egMembers [0, 0, 0, 3] 0 = some (⟨"THREE", 3⟩, 4)
    ∧ XDREnum.unpack_from egMembers [0, 0, 0, 5] 0 = none := by
  have hwf : ∀ v m, egMembers v = some m → m.value = v := by
    intro v m hm
    unfold egMembers at hm
    by_cases h : v = 3
    · rw [if_pos h] at hm
      cases hm
      rw [h]
    · rw [if_neg h] at hm
      cases hm
  exact ⟨((enum_decode_lookup egMembers hwf [0, 0, 0, 3] 0 3 4 (by decide)).1
            ⟨"THREE", 3⟩ (by decide)).1,
         (enum_decode_lookup egMembers hwf [0, 0, 0, 5] 0 5 4 (by decide)).2 (by decide)⟩

/-- C8 (amended): the enum encode operation writes its argument via the
signed 4-byte rule `pack_int`, so it succeeds exactly for integers in the
signed 32-bit range `-2^31 .. 2^31 - 1`, writing the 4-byte big-endian
two's-complement representation; integers `2^31 .. 2^32 - 1` (and anything
below `-2^31`) make it fail. -/
theorem enum_encode_signed_range (x : Int) :
    (-2 ^ 31 ≤ x ∧ x < 2 ^ 31 →
      XDREnum.pack_into x = some (be4 (x % 2 ^ 32).toNat)
        ∧ (be4 (x % 2 ^ 32).toNat).length = 4)
    ∧ (2 ^ 31 ≤ x → XDREnum.pack_into x = none)
    ∧ (x < -2 ^ 31 → XDREnum.pack_into x = none) := by
  unfold XDREnum.pack_into pack_int
  refine ⟨fun h => ⟨by rw [if_pos h], be4_length _⟩,
    fun h => by rw [if_neg (by omega)], fun h => by rw [if_neg (by omega)]⟩

/-- Closed instance of the amended C8: 7 encodes to `00 00 00 07`, while
`2^32 - 1` — a value the original claim says must succeed — fails. -/
theorem enum_encode_signed_range_witness :
    XDREnum.pack_into 7 = some (be4 ((7 : Int) % 2 ^ 32).toNat)
    ∧ XDREnum.pack_into (2 ^ 32 - 1) = none :=
  ⟨((enum_encode_signed_range 7).1 (by decide)).1,
   (enum_encode_signed_range (2 ^ 32 - 1)).2.1 (by decide)⟩

/-- Refutation of C8 as stated: `2^32 - 1` is in the claimed range
`0 .. 2^32 - 1`, yet `XDREnum.pack_into` (which calls the signed
`pack_int`) raises `struct.error` on it; `2^31` likewise fails. -/
theorem enum_encode_u32_fails :
    ((0 : Int) ≤ 2 ^ 32 - 1 ∧ (2 ^ 32 - 1 : Int) ≤ 2 ^ 32 - 1)
    ∧ XDREnum.pack_into (2 ^ 32 - 1) = none
    ∧ XDREnum.pack_into (2 ^ 31) = none := by
  refine ⟨⟨by decide, by decide⟩, by decide, by decide⟩

/-- C9 (amended): every successfully decoded `endpoint_key` has all three
fields present (non-`None`); construction fills the fields from its
arguments, so explicit construction with present values yields present
fields, but the constructor's arguments default to `None`. -/
theorem decoded_key_fields_present :
    (∀ (b : List Nat) (k : endpoint_key), endpoint_key.unpack b = some k →
        k.vlan ≠ none ∧ k.mac_hi ≠ none ∧ k.mac_lo ≠ none)
    ∧ ∀ (v h l : Int),
        (endpoint_key.init (some v) (some h) (some l)).vlan ≠ none
        ∧ (endpoint_key.init (some v) (some h) (some l)).mac_hi ≠ none
        ∧ (endpoint_key.init (some v) (some h) (some l)).mac_lo ≠ none := by
  constructor
  · intro b k hk
    unfold endpoint_key.unpack endpoint_key.unpack_from at hk
    rcases e1 : unpack_uint b 0 with _ | ⟨v1, p1⟩ <;> rw [e1] at hk
    · simp at hk
    simp only at hk
    rcases e2 : unpack_uint b p1 with _ | ⟨v2, p2⟩ <;> rw [e2] at hk
    · simp at hk
    simp only at hk
    rcases e3 : unpack_uint b p2 with _ | ⟨v3, p3⟩ <;> rw [e3] at hk
    · simp at hk
    simp only [Option.map_some'] at hk
    injection hk with hk
    rw [← hk]
    exact ⟨Option.some_ne_none _, Option.some_ne_none _, Option.some_ne_none _⟩
  · intro v h l
    exact ⟨Option.some_ne_none _, Option.some_ne_none _, Option.some_ne_none _⟩

/-- Closed instance of the amended C9 at a concretely decoded buffer. -/
theorem decoded_key_fields_present_witness :
    endpoint_key.unpack [0, 0, 0, 1, 0, 0, 0, 2, 0, 0, 0, 3]
        = some ⟨some 1, some 2, some 3⟩
    ∧ ((⟨some 1, some 2, some 3⟩ : endpoint_key).vlan ≠ none
        ∧ (⟨some 1, some 2, some 3⟩ : endpoint_key).mac_hi ≠ none
        ∧ (⟨some 1, some 2, some 3⟩ : endpoint_key).mac_lo ≠ none) :=
  ⟨by decide,
   decoded_key_fields_present.1 [0, 0, 0, 1, 0, 0, 0, 2, 0, 0, 0, 3]
     ⟨some 1, some 2, some 3⟩ (by decide)⟩

/-- Refutation of C9 as stated: the constructor's arguments all default to
`None`, so the zero-argument construction `endpoint_key()` succeeds yet
yields an instance whose `vlan` field is absent. -/
theorem default_constructed_key_absent_fields :
    (endpoint_key.init none none none).vlan = none
    ∧ (endpoint_key.init none none none).mac_hi = none
    ∧ (endpoint_key.init none none none).mac_lo = none :=
  ⟨rfl, rfl, rfl⟩

/-- C10: for every pair of values whose receiver is a concrete record
instance or a union member, `__ne__` returns exactly the boolean negation
of `__eq__`. -/
theorem ne_is_negation_of_eq (a b : Obj) : Obj.nePy a b = !(Obj.eqPy a b) :=
  rfl

end L2SwitchXDR
